import Mathlib

/-!
Verification of the RatOS G-code post-processor stream-state engine
(`src/server/gcode-processor/State.ts`) against its design document.

The `State` class is embedded shallowly: each TypeScript field becomes a
structure field (JS `undefined` becomes `Option.none`, the private
`#gcodeInfo` backing field becomes `gcodeInfoBacking`), JS numbers that the
code only seeds and compares become exact rationals, and the fallible
`gcodeInfo` getter becomes an `Except`.  Parts of the repository that the
claims depend on but that are not part of the excerpted source (the per-line
driver, the coordinate/tool-change observers, the bookmark registry) are
modelled from the design document; each such definition carries a doc
comment starting with `Modelled from the spec:`.
-/

/-- External opaque command model (`CommonGCodeCommand`, imported by
`State.ts` but external to it).  `State` stores and swaps it without ever
inspecting it, so an opaque token suffices. -/
structure CommonGCodeCommand where
  token : String
deriving DecidableEq, Repr

/-- External opaque info aggregate (`MutableGCodeInfo`, imported by
`State.ts` but external to it).  `State` only attaches and hands it back,
so an opaque token suffices. -/
structure MutableGCodeInfo where
  token : String
deriving DecidableEq, Repr

/-- Modelled from the spec: `InternalError` (from `errors.ts`, which is not
part of the excerpted source) is the distinguished internal-error kind
carrying a message, raised for programming-contract violations. -/
structure InternalError where
  message : String
deriving DecidableEq, Repr

/-- Modelled from the spec: a `BookmarkKey` (from `Bookmark.ts`, not part of
the excerpted source) is an opaque capability; per the design notes it is an
index into the registry's append-only slot table. -/
abbrev BookmarkKey := Nat

/-- Immutable pair of original line text and bookmark key (`BookmarkedLine`
in `State.ts`). -/
structure BookmarkedLine where
  line : String
  bookmark : BookmarkKey
deriving DecidableEq, Repr

/-- Exact value of JavaScript `Number.MAX_VALUE` as a rational:
`(2 - 2⁻⁵²)·2¹⁰²³`. -/
def jsNumberMaxValue : ℚ := 2 ^ 1024 - 2 ^ 971

/-- Exact value of JavaScript `Number.MIN_VALUE` as a rational: the smallest
positive double `2⁻¹⁰⁷⁴`.  Note that this is a *positive* number, not the
most negative double. -/
def jsNumberMinValue : ℚ := 1 / 2 ^ 1074

/-- The state shared between actions of the G-code post-processing action
sequence (`class State` in `State.ts`).  Field order and names follow the
source; `k`-prefixed fields are the immutable run configuration, unprefixed
fields are stream scope, the `_`-prefixed field is iteration scope, and
`gcodeInfoBacking` embeds the private `#gcodeInfo` field. -/
structure State where
  kPrinterHasIdex : Bool
  kQuickInpsectionOnly : Bool
  kAllowUnsupportedSlicerVersions : Bool
  onWarning : Option (String → String → Unit)
  currentLineNumber : ℤ := -1
  firstLine : Option BookmarkedLine := none
  startPrintLine : Option BookmarkedLine := none
  onLayerChange2Line : Option BookmarkedLine := none
  extruderTempLines : Option (List BookmarkedLine) := none
  extruderTemps : Option (List String) := none
  toolChangeCount : ℕ := 0
  firstMoveX : Option String := none
  firstMoveY : Option String := none
  minX : ℚ := jsNumberMaxValue
  maxX : ℚ := jsNumberMinValue
  hasPurgeTower : Option Bool := none
  configSection : Option (List (String × String)) := none
  processingHasBeenFinalized : Bool := false
  usedTools : List String := []
  _cmd : Option (Option CommonGCodeCommand) := none
  gcodeInfoBacking : Option MutableGCodeInfo := none

/-- The `State` constructor: only the four run-configuration parameters are
supplied; every other field takes the initializer declared in the class
body. -/
def State.new (kPrinterHasIdex kQuickInpsectionOnly kAllowUnsupportedSlicerVersions : Bool)
    (onWarning : Option (String → String → Unit)) : State :=
  { kPrinterHasIdex := kPrinterHasIdex
    kQuickInpsectionOnly := kQuickInpsectionOnly
    kAllowUnsupportedSlicerVersions := kAllowUnsupportedSlicerVersions
    onWarning := onWarning }

/-- `State.resetIterationState`: resets iteration-scope state by setting
`_cmd` back to `undefined`. -/
def State.resetIterationState (s : State) : State :=
  { s with _cmd := none }

/-- The non-optional `gcodeInfo` getter: throws `InternalError` while the
private backing field is unset, otherwise returns the attached aggregate. -/
def State.gcodeInfo (s : State) : Except InternalError MutableGCodeInfo :=
  match s.gcodeInfoBacking with
  | none => .error ⟨"gcodeInfo has not been set yet."⟩
  | some v => .ok v

/-- The `gcodeInfo` setter: stores the aggregate in the private backing
field (no guard of any kind in the source). -/
def State.setGcodeInfo (s : State) (value : MutableGCodeInfo) : State :=
  { s with gcodeInfoBacking := some value }

/-- The `gcodeInfoOrUndefined` getter: returns the backing field as-is. -/
def State.gcodeInfoOrUndefined (s : State) : Option MutableGCodeInfo :=
  s.gcodeInfoBacking

/-- Numeric value of a decimal digit string. -/
def digitsVal (cs : List Char) : ℕ :=
  cs.foldl (fun n c => n * 10 + (c.toNat - 48)) 0

/-- Decides whether a string is a JavaScript array-index property key: the
canonical decimal form of an integer `n` with `0 ≤ n < 2³² - 1` (digits
only, no leading zero except for `"0"` itself).  Plain JS objects enumerate
such keys first, in ascending numeric order, regardless of insertion
order. -/
def isArrayIndexKey (s : String) : Bool :=
  match s.data with
  | [] => false
  | c :: cs =>
    (c :: cs).all Char.isDigit && (c != '0' || cs.isEmpty)
      && decide (digitsVal (c :: cs) < 4294967295)

/-- Numeric value of an array-index key, used to order the index-key block
of a JS object's enumeration. -/
def arrayIndexVal (e : String × String) : ℕ :=
  digitsVal e.1.data

/-- Inserts an entry into a list ordered by ascending `arrayIndexVal`. -/
def insertByIndexVal (e : String × String) : List (String × String) → List (String × String)
  | [] => [e]
  | f :: rest =>
    if arrayIndexVal e ≤ arrayIndexVal f then e :: f :: rest
    else f :: insertByIndexVal e rest

/-- Insertion sort by ascending `arrayIndexVal`. -/
def sortByIndexVal : List (String × String) → List (String × String)
  | [] => []
  | e :: rest => insertByIndexVal e (sortByIndexVal rest)

/-- One step of JS property creation: assigning key `k` keeps an existing
property's position and overwrites its value, otherwise appends. -/
def jsAssoc (l : List (String × String)) (e : String × String) : List (String × String) :=
  if e.1 ∈ l.map Prod.fst then
    l.map (fun f => if f.1 = e.1 then (f.1, e.2) else f)
  else l ++ [e]

/-- `Object.fromEntries`, with the result object represented by its own
enumeration order: properties are created in entry order (`jsAssoc`), then
array-index keys are enumerated first in ascending numeric order, followed
by the remaining keys in creation order. -/
def jsFromEntries (entries : List (String × String)) : List (String × String) :=
  let created := entries.foldl jsAssoc []
  sortByIndexVal (created.filter (fun e => isArrayIndexKey e.1))
    ++ created.filter (fun e => !isArrayIndexKey e.1)

/-- The `configSectionAsObject` getter: `undefined` while `configSection` is
`undefined`, otherwise `Object.fromEntries(configSection.entries())` (a Map
iterates its entries in insertion order). -/
def State.configSectionAsObject (s : State) : Option (List (String × String)) :=
  match s.configSection with
  | none => none
  | some entries => some (jsFromEntries entries)

/-- Modelled from the spec: the per-line driver (external to `State.ts`)
advances `currentLineNumber` by exactly one for each processed input line
("increases monotonically by exactly one per processed input line"). -/
def State.advanceLine (s : State) (_line : String) : State :=
  { s with currentLineNumber := s.currentLineNumber + 1 }

/-- Modelled from the spec: running the driver over a sequence of input
lines advances the line counter once per line, in order. -/
def processLines (s : State) (lines : List String) : State :=
  lines.foldl State.advanceLine s

/-- Modelled from the spec: the coordinate-observing action (external to
`State.ts`) folds an observed X-coordinate move into the bounding interval,
lowering `minX` and raising `maxX`. -/
def State.observeXMove (s : State) (x : ℚ) : State :=
  { s with minX := min s.minX x, maxX := max s.maxX x }

/-- Modelled from the spec: the tool-change action (external to `State.ts`)
counts the recognized tool-change command and records the tool id in
`usedTools` "exactly once, in first-use order (append-only, set-like dedup
over an ordered sequence)". -/
def State.observeToolChange (s : State) (tool : String) : State :=
  { s with
    toolChangeCount := s.toolChangeCount + 1
    usedTools := if tool ∈ s.usedTools then s.usedTools else s.usedTools ++ [tool] }

/-- The `usedTools` list produced by feeding a sequence of tool-change
commands to a fresh `State`. -/
def usedToolsOf (tools : List String) : List String :=
  (tools.foldl State.observeToolChange (State.new false false false none)).usedTools

/-- Modelled from the spec: one slot of the bookmark registry's append-only
slot table — the current line text plus a consumed flag ("resolution looks
up by index and marks the slot consumed"). -/
structure BookmarkSlot where
  text : String
  resolved : Bool
deriving DecidableEq, Repr

/-- Modelled from the spec: the Bookmark Registry (external to `State.ts`)
owns the append-only slot table and knows whether the owning run has
finalized. -/
structure BookmarkRegistry where
  slots : List BookmarkSlot
  finalized : Bool
deriving DecidableEq, Repr

/-- Modelled from the spec: the error kinds with which bookmark resolution
fails — "bookmark already resolved", "bookmark unknown", and the fatal
"state already finalized" contract violation. -/
inductive ResolveError where
  | bookmarkAlreadyResolved
  | bookmarkUnknown
  | stateAlreadyFinalized
deriving DecidableEq, Repr

/-- Modelled from the spec: `createBookmark(lineText)` appends a fresh
unresolved slot and returns its index as the minted key. -/
def BookmarkRegistry.createBookmark (r : BookmarkRegistry) (lineText : String) :
    BookmarkRegistry × BookmarkKey :=
  ({ r with slots := r.slots ++ [⟨lineText, false⟩] }, r.slots.length)

/-- Modelled from the spec: `resolve(key, newText)` rewrites the text held
at `key`.  It succeeds only while the owning run has not finalized, fails
with "bookmark unknown" for a key not minted by this run, and fails with
"bookmark already resolved" on a second resolution of the same key. -/
def BookmarkRegistry.resolve (r : BookmarkRegistry) (key : BookmarkKey) (newText : String) :
    Except ResolveError BookmarkRegistry :=
  if r.finalized then
    .error .stateAlreadyFinalized
  else
    match r.slots[key]? with
    | none => .error .bookmarkUnknown
    | some slot =>
      if slot.resolved then .error .bookmarkAlreadyResolved
      else .ok { r with slots := r.slots.set key ⟨newText, true⟩ }

/-- List-level step of first-use tool recording: the action
`State.observeToolChange` performs exactly this step on the `usedTools`
field. -/
def toolStep (acc : List String) (t : String) : List String :=
  if t ∈ acc then acc else acc ++ [t]

/-! ## Helper lemmas -/

/-- Each processed line adds exactly one to `currentLineNumber`. -/
theorem processLines_currentLineNumber (lines : List String) (s : State) :
    (processLines s lines).currentLineNumber = s.currentLineNumber + lines.length := by
  induction lines generalizing s with
  | nil => simp [processLines]
  | cons l ls ih =>
    simp only [processLines, List.foldl_cons, List.length_cons] at *
    rw [ih]
    simp [State.advanceLine]
    ring

theorem observeToolChange_usedTools (tools : List String) (s : State) :
    (tools.foldl State.observeToolChange s).usedTools = tools.foldl toolStep s.usedTools := by
  induction tools generalizing s with
  | nil => rfl
  | cons t ts ih =>
    simp only [List.foldl_cons]
    rw [ih]
    rfl

theorem mem_foldl_toolStep (tools : List String) (acc : List String) (a : String) :
    a ∈ tools.foldl toolStep acc ↔ a ∈ acc ∨ a ∈ tools := by
  induction tools generalizing acc with
  | nil => simp
  | cons t ts ih =>
    simp only [List.foldl_cons, ih, List.mem_cons, toolStep]
    by_cases ht : t ∈ acc
    · simp only [if_pos ht]
      constructor
      · tauto
      · rintro (h | h | h)
        · tauto
        · subst h; tauto
        · tauto
    · simp only [if_neg ht, List.mem_append, List.mem_singleton]
      tauto

theorem nodup_foldl_toolStep (tools : List String) (acc : List String) (h : acc.Nodup) :
    (tools.foldl toolStep acc).Nodup := by
  induction tools generalizing acc with
  | nil => exact h
  | cons t ts ih =>
    simp only [List.foldl_cons]
    apply ih
    unfold toolStep
    by_cases ht : t ∈ acc
    · simpa [ht]
    · simp [ht, List.nodup_append, h]

theorem prefix_foldl_toolStep (tools : List String) (acc : List String) :
    acc <+: tools.foldl toolStep acc := by
  induction tools generalizing acc with
  | nil => exact List.prefix_rfl
  | cons t ts ih =>
    simp only [List.foldl_cons]
    refine List.IsPrefix.trans ?_ (ih (toolStep acc t))
    unfold toolStep
    by_cases ht : t ∈ acc
    · simp [ht]
    · simp only [if_neg ht]
      exact List.prefix_append acc [t]

theorem take_foldl_toolStep_prefix (tools : List String) (acc : List String) (n : Nat) :
    (tools.take n).foldl toolStep acc <+: tools.foldl toolStep acc := by
  induction tools generalizing acc n with
  | nil => simp [List.prefix_rfl]
  | cons t ts ih =>
    cases n with
    | zero => simpa using prefix_foldl_toolStep (t :: ts) acc
    | succ m =>
      simp only [List.take_succ_cons, List.foldl_cons]
      exact ih (toolStep acc t) m

theorem foldl_toolStep_sublist (tools : List String) (acc : List String) :
    ∃ u, tools.foldl toolStep acc = acc ++ u ∧ u.Sublist tools := by
  induction tools generalizing acc with
  | nil => exact ⟨[], by simp⟩
  | cons t ts ih =>
    simp only [List.foldl_cons]
    by_cases ht : t ∈ acc
    · have hstep : toolStep acc t = acc := by simp [toolStep, ht]
      rw [hstep]
      obtain ⟨u, hu, hsub⟩ := ih acc
      exact ⟨u, hu, hsub.trans (List.sublist_cons_self t ts)⟩
    · have hstep : toolStep acc t = acc ++ [t] := by simp [toolStep, ht]
      rw [hstep]
      obtain ⟨u, hu, hsub⟩ := ih (acc ++ [t])
      refine ⟨t :: u, ?_, hsub.cons₂ t⟩
      rw [hu, List.append_assoc]
      rfl

/-- Creating JS object properties from entries with pairwise-distinct keys
appends them in order. -/
theorem foldl_jsAssoc_of_nodup (entries acc : List (String × String))
    (h : ((acc ++ entries).map Prod.fst).Nodup) :
    entries.foldl jsAssoc acc = acc ++ entries := by
  induction entries generalizing acc with
  | nil => simp
  | cons e es ih =>
    simp only [List.foldl_cons]
    have hnotin : e.1 ∉ acc.map Prod.fst := by
      intro hmem
      rw [List.map_append, List.nodup_append] at h
      exact h.2.2 hmem (by simp)
    have hstep : jsAssoc acc e = acc ++ [e] := by
      simp [jsAssoc, hnotin]
    rw [hstep, ih (acc ++ [e]) (by simpa using h)]
    simp


/-! ## Claim theorems -/

/-- C1 (counterexample): `currentLineNumber` is not 1-indexed.  Starting
from the declared sentinel `-1` and advancing by exactly one per processed
line, processing the single-line input `["G1 X0"]` leaves
`currentLineNumber = 0`, not `1` as the claim requires for line 1. -/
theorem currentLineNumber_not_one_indexed :
    (processLines (State.new false false false none) ["G1 X0"]).currentLineNumber = 0 ∧
    (processLines (State.new false false false none) ["G1 X0"]).currentLineNumber ≠ 1 := by
  constructor <;> decide

/-- C1 (amended): `currentLineNumber` begins at the sentinel `-1`, is
advanced by exactly one per processed input line, and after processing line
`i` (1-indexed) equals `i - 1`; in particular after a whole input of `n`
lines it equals `n - 1`. -/
theorem currentLineNumber_counts_lines (lines : List String) :
    (State.new false false false none).currentLineNumber = -1 ∧
    (processLines (State.new false false false none) lines).currentLineNumber =
      (lines.length : ℤ) - 1 := by
  refine ⟨rfl, ?_⟩
  rw [processLines_currentLineNumber]
  show -1 + (lines.length : ℤ) = (lines.length : ℤ) - 1
  ring

/-- C4: while the Info Aggregate backing field is unset, the non-optional
`gcodeInfo` accessor fails with the distinguished `InternalError` (never a
default or null), the optional `gcodeInfoOrUndefined` accessor returns the
explicit absence marker, and after attachment the non-optional accessor
returns the attached value. -/
theorem gcodeInfo_before_attach_fails (s : State) (v : MutableGCodeInfo)
    (h : s.gcodeInfoBacking = none) :
    s.gcodeInfo = Except.error ⟨"gcodeInfo has not been set yet."⟩ ∧
    s.gcodeInfoOrUndefined = none ∧
    (s.setGcodeInfo v).gcodeInfo = Except.ok v := by
  refine ⟨?_, ?_, ?_⟩ <;>
    simp [State.gcodeInfo, State.gcodeInfoOrUndefined, State.setGcodeInfo, h]

/-- C4 (witness): the freshly constructed state is a concrete state with an
unset backing field, on which the accessors behave as stated. -/
theorem gcodeInfo_before_attach_fails_witness :
    (State.new false false false none).gcodeInfo =
      Except.error ⟨"gcodeInfo has not been set yet."⟩ ∧
    (State.new false false false none).gcodeInfoOrUndefined = none ∧
    ((State.new false false false none).setGcodeInfo ⟨"sv7"⟩).gcodeInfo =
      Except.ok ⟨"sv7"⟩ :=
  gcodeInfo_before_attach_fails (State.new false false false none) ⟨"sv7"⟩ rfl

/-- C6: `resetIterationState` restores the (only) iteration-scoped field
`_cmd` to the explicit absent representation `undefined` regardless of the
previous value; hence after classifying line A as command `cmdA` and
resetting for line B, the command slot holds the absence marker and never
`cmdA`. -/
theorem resetIterationState_restores_absent (s : State) (cmdA : CommonGCodeCommand) :
    s.resetIterationState._cmd = none ∧
    ({ s with _cmd := some (some cmdA) } : State).resetIterationState._cmd = none ∧
    ({ s with _cmd := some (some cmdA) } : State).resetIterationState._cmd ≠
      some (some cmdA) := by
  refine ⟨rfl, rfl, ?_⟩
  simp [State.resetIterationState]

/-- C7: for every run configuration, a freshly constructed `State` carries
exactly that configuration, every mutable field holds its declared default
(line counter at the `-1` sentinel, `toolChangeCount` zero, `usedTools`
empty, `processingHasBeenFinalized` false, bookmark, coordinate and config
fields absent, `minX`/`maxX` at their numeric sentinels), and reading the
non-optional `gcodeInfo` accessor fails. -/
theorem fresh_state_is_constructed (hasIdex quickOnly allowUnsupported : Bool)
    (onWarning : Option (String → String → Unit)) :
    (State.new hasIdex quickOnly allowUnsupported onWarning).kPrinterHasIdex = hasIdex ∧
    (State.new hasIdex quickOnly allowUnsupported onWarning).kQuickInpsectionOnly = quickOnly ∧
    (State.new hasIdex quickOnly allowUnsupported onWarning).kAllowUnsupportedSlicerVersions
      = allowUnsupported ∧
    (State.new hasIdex quickOnly allowUnsupported onWarning).onWarning = onWarning ∧
    (State.new hasIdex quickOnly allowUnsupported onWarning).currentLineNumber = -1 ∧
    (State.new hasIdex quickOnly allowUnsupported onWarning).firstLine = none ∧
    (State.new hasIdex quickOnly allowUnsupported onWarning).startPrintLine = none ∧
    (State.new hasIdex quickOnly allowUnsupported onWarning).onLayerChange2Line = none ∧
    (State.new hasIdex quickOnly allowUnsupported onWarning).extruderTempLines = none ∧
    (State.new hasIdex quickOnly allowUnsupported onWarning).extruderTemps = none ∧
    (State.new hasIdex quickOnly allowUnsupported onWarning).toolChangeCount = 0 ∧
    (State.new hasIdex quickOnly allowUnsupported onWarning).firstMoveX = none ∧
    (State.new hasIdex quickOnly allowUnsupported onWarning).firstMoveY = none ∧
    (State.new hasIdex quickOnly allowUnsupported onWarning).minX = jsNumberMaxValue ∧
    (State.new hasIdex quickOnly allowUnsupported onWarning).maxX = jsNumberMinValue ∧
    (State.new hasIdex quickOnly allowUnsupported onWarning).hasPurgeTower = none ∧
    (State.new hasIdex quickOnly allowUnsupported onWarning).configSection = none ∧
    (State.new hasIdex quickOnly allowUnsupported onWarning).processingHasBeenFinalized
      = false ∧
    (State.new hasIdex quickOnly allowUnsupported onWarning).usedTools = [] ∧
    (State.new hasIdex quickOnly allowUnsupported onWarning)._cmd = none ∧
    (State.new hasIdex quickOnly allowUnsupported onWarning).gcodeInfoOrUndefined = none ∧
    (State.new hasIdex quickOnly allowUnsupported onWarning).gcodeInfo =
      Except.error ⟨"gcodeInfo has not been set yet."⟩ :=
  ⟨rfl, rfl, rfl, rfl, rfl, rfl, rfl, rfl, rfl, rfl, rfl, rfl, rfl, rfl, rfl, rfl, rfl,
   rfl, rfl, rfl, rfl, rfl⟩

/-- C10 (frame effect): `resetIterationState` sets the iteration-scope field
`_cmd` to the absent value and leaves every other field — the immutable run
configuration, every stream-scope field, and the attached Info Aggregate
backing field — unchanged. -/
theorem resetIterationState_frame (s : State) :
    s.resetIterationState._cmd = none ∧
    s.resetIterationState.kPrinterHasIdex = s.kPrinterHasIdex ∧
    s.resetIterationState.kQuickInpsectionOnly = s.kQuickInpsectionOnly ∧
    s.resetIterationState.kAllowUnsupportedSlicerVersions
      = s.kAllowUnsupportedSlicerVersions ∧
    s.resetIterationState.onWarning = s.onWarning ∧
    s.resetIterationState.currentLineNumber = s.currentLineNumber ∧
    s.resetIterationState.firstLine = s.firstLine ∧
    s.resetIterationState.startPrintLine = s.startPrintLine ∧
    s.resetIterationState.onLayerChange2Line = s.onLayerChange2Line ∧
    s.resetIterationState.extruderTempLines = s.extruderTempLines ∧
    s.resetIterationState.extruderTemps = s.extruderTemps ∧
    s.resetIterationState.toolChangeCount = s.toolChangeCount ∧
    s.resetIterationState.firstMoveX = s.firstMoveX ∧
    s.resetIterationState.firstMoveY = s.firstMoveY ∧
    s.resetIterationState.minX = s.minX ∧
    s.resetIterationState.maxX = s.maxX ∧
    s.resetIterationState.hasPurgeTower = s.hasPurgeTower ∧
    s.resetIterationState.configSection = s.configSection ∧
    s.resetIterationState.processingHasBeenFinalized = s.processingHasBeenFinalized ∧
    s.resetIterationState.usedTools = s.usedTools ∧
    s.resetIterationState.gcodeInfoBacking = s.gcodeInfoBacking :=
  ⟨rfl, rfl, rfl, rfl, rfl, rfl, rfl, rfl, rfl, rfl, rfl, rfl, rfl, rfl, rfl, rfl, rfl,
   rfl, rfl, rfl, rfl⟩

/-- C2 (failing input): the `maxX` sentinel `Number.MIN_VALUE` is the
smallest *positive* double, not a lower extreme, so observing a single move
with `X = -3` on a fresh state leaves `maxX` at the sentinel instead of an
observed value (while `minX` is correctly replaced); the spec's example
`{5, -3, 10}` nevertheless converges because `10` exceeds the tiny positive
sentinel. -/
theorem maxX_sentinel_survives_negative_move :
    ((State.new false false false none).observeXMove (-3)).minX = -3 ∧
    ((State.new false false false none).observeXMove (-3)).maxX = jsNumberMinValue ∧
    jsNumberMinValue ≠ (-3 : ℚ) ∧ (0 : ℚ) < jsNumberMinValue ∧
    ([5, -3, 10].foldl State.observeXMove (State.new false false false none)).minX = -3 ∧
    ([5, -3, 10].foldl State.observeXMove (State.new false false false none)).maxX = 10 := by
  simp only [List.foldl, State.observeXMove, State.new]
  norm_num [jsNumberMinValue, jsNumberMaxValue, min_def, max_def]

/-- C3 (counterexample): `State` does not enforce the post-finalization
mutation ban.  On a concrete state whose `processingHasBeenFinalized` flag
is `true`, `resetIterationState` and the `gcodeInfo` setter still succeed
and mutate the state — they are total operations with no error path — so
the claim that every Stream State mutation fails after finalization is
false. -/
theorem finalized_state_still_mutable :
    ({ State.new false false false none with
        processingHasBeenFinalized := true,
        _cmd := some (some ⟨"T0"⟩) } : State).resetIterationState._cmd = none ∧
    ({ State.new false false false none with
        processingHasBeenFinalized := true,
        _cmd := some (some ⟨"T0"⟩) } : State).resetIterationState.processingHasBeenFinalized
      = true ∧
    (({ State.new false false false none with
        processingHasBeenFinalized := true } : State).setGcodeInfo
        ⟨"header"⟩).gcodeInfoBacking = some ⟨"header"⟩ ∧
    (({ State.new false false false none with
        processingHasBeenFinalized := true } : State).setGcodeInfo
        ⟨"header"⟩).processingHasBeenFinalized = true :=
  ⟨rfl, rfl, rfl, rfl⟩

/-- C3 (amended): `processingHasBeenFinalized` begins `false` and is set to
`true` by the pipeline, but the `State` class itself performs no
enforcement: its mutating operations (`resetIterationState`, the
`gcodeInfo` setter, public field writes) still succeed and take effect on a
finalized state, leaving the flag `true`; bookmark resolution — which lives
in the registry, outside `State` — does fail with the fatal
"state already finalized" error once the run has finalized. -/
theorem finalization_not_enforced_by_state (s : State) (v : MutableGCodeInfo)
    (r : BookmarkRegistry) (k : BookmarkKey) (t : String)
    (hs : s.processingHasBeenFinalized = true)
    (hr : r.finalized = true) :
    (State.new false false false none).processingHasBeenFinalized = false ∧
    (s.setGcodeInfo v).gcodeInfoBacking = some v ∧
    (s.setGcodeInfo v).processingHasBeenFinalized = true ∧
    s.resetIterationState._cmd = none ∧
    s.resetIterationState.processingHasBeenFinalized = true ∧
    r.resolve k t = Except.error ResolveError.stateAlreadyFinalized := by
  refine ⟨rfl, rfl, ?_, rfl, ?_, ?_⟩
  · exact hs
  · exact hs
  · simp [BookmarkRegistry.resolve, hr]

/-- C3 (witness): the amended statement instantiated at a concrete
finalized state and registry. -/
theorem finalization_not_enforced_by_state_witness :
    (State.new false false false none).processingHasBeenFinalized = false ∧
    (({ State.new false false false none with
        processingHasBeenFinalized := true } : State).setGcodeInfo
        ⟨"info"⟩).gcodeInfoBacking = some ⟨"info"⟩ ∧
    (({ State.new false false false none with
        processingHasBeenFinalized := true } : State).setGcodeInfo
        ⟨"info"⟩).processingHasBeenFinalized = true ∧
    ({ State.new false false false none with
        processingHasBeenFinalized := true } : State).resetIterationState._cmd = none ∧
    ({ State.new false false false none with
        processingHasBeenFinalized := true } : State).resetIterationState.processingHasBeenFinalized
      = true ∧
    BookmarkRegistry.resolve ⟨[⟨"line", false⟩], true⟩ 0 "patched"
      = Except.error ResolveError.stateAlreadyFinalized :=
  finalization_not_enforced_by_state
    { State.new false false false none with processingHasBeenFinalized := true }
    ⟨"info"⟩ ⟨[⟨"line", false⟩], true⟩ 0 "patched" rfl rfl

/-- C8: for every interleaving of tool-change commands, `usedTools` is
duplicate-free, contains exactly the tools that occurred, is a subsequence
of the command sequence, and grows append-only (processing a prefix of the
commands yields a prefix of the final list).  Together these four
properties say each distinct tool id appears exactly once, ordered by first
occurrence; the spec's example `0,1,0,2,1 ↦ [0,1,2]` is included. -/
theorem usedTools_first_use_dedup (tools : List String) :
    (usedToolsOf tools).Nodup ∧
    (∀ t, t ∈ usedToolsOf tools ↔ t ∈ tools) ∧
    (usedToolsOf tools).Sublist tools ∧
    (∀ n, usedToolsOf (tools.take n) <+: usedToolsOf tools) ∧
    usedToolsOf ["0", "1", "0", "2", "1"] = ["0", "1", "2"] := by
  have hrw : ∀ ts : List String, usedToolsOf ts = ts.foldl toolStep [] := by
    intro ts
    unfold usedToolsOf
    rw [observeToolChange_usedTools]
    rfl
  refine ⟨?_, ?_, ?_, ?_, ?_⟩
  · rw [hrw]; exact nodup_foldl_toolStep _ _ List.nodup_nil
  · intro t; rw [hrw, mem_foldl_toolStep]; simp
  · rw [hrw]
    obtain ⟨u, hu, hsub⟩ := foldl_toolStep_sublist tools []
    simpa [hu] using hsub
  · intro n; rw [hrw, hrw]; exact take_foldl_toolStep_prefix tools [] n
  · decide

/-- C9: bookmark resolution is at-most-once and run-scoped.  If resolving
key `k` with text `t1` succeeds, a second resolution of `k` fails with
"bookmark already resolved" while the slot retains `t1`; a key that was
never minted by the run (beyond the slot table) fails with "bookmark
unknown"; and once the owning run has finalized every resolution fails with
the fatal "state already finalized" error. -/
theorem bookmark_resolution_contract
    (r r1 : BookmarkRegistry) (k : BookmarkKey) (t1 t2 : String)
    (q : BookmarkRegistry) (uk : BookmarkKey) (ut : String)
    (f : BookmarkRegistry) (fk : BookmarkKey) (ft : String)
    (hres : r.resolve k t1 = Except.ok r1)
    (hq : q.finalized = false) (huk : q.slots.length ≤ uk)
    (hf : f.finalized = true) :
    r1.resolve k t2 = Except.error ResolveError.bookmarkAlreadyResolved ∧
    r1.slots[k]?.map BookmarkSlot.text = some t1 ∧
    q.resolve uk ut = Except.error ResolveError.bookmarkUnknown ∧
    f.resolve fk ft = Except.error ResolveError.stateAlreadyFinalized := by
  unfold BookmarkRegistry.resolve at hres
  by_cases hrf : r.finalized
  · simp [hrf] at hres
  · simp only [hrf, Bool.false_eq_true, if_false] at hres
    cases hslot : r.slots[k]? with
    | none => rw [hslot] at hres; simp at hres
    | some slot =>
      rw [hslot] at hres
      by_cases hcons : slot.resolved
      · simp [hcons] at hres
      · simp only [hcons, Bool.false_eq_true, if_false, Except.ok.injEq] at hres
        obtain ⟨hk, -⟩ := List.getElem?_eq_some.mp hslot
        subst hres
        have hget : (r.slots.set k ⟨t1, true⟩)[k]? = some ⟨t1, true⟩ :=
          List.getElem?_set_eq_of_lt _ hk
        refine ⟨?_, ?_, ?_, ?_⟩
        · unfold BookmarkRegistry.resolve
          simp [hrf, hget]
        · simp [hget]
        · unfold BookmarkRegistry.resolve
          simp [hq, List.getElem?_eq_none huk]
        · unfold BookmarkRegistry.resolve
          simp [hf]

/-- C9 (witness): the contract instantiated on a one-slot registry whose
bookmark 0 has been resolved to "patched", an empty un-finalized registry,
and a finalized registry. -/
theorem bookmark_resolution_contract_witness :
    BookmarkRegistry.resolve ⟨[⟨"patched", true⟩], false⟩ 0 "again"
      = Except.error ResolveError.bookmarkAlreadyResolved ∧
    (BookmarkRegistry.mk [⟨"patched", true⟩] false).slots[0]?.map BookmarkSlot.text
      = some "patched" ∧
    BookmarkRegistry.resolve ⟨[], false⟩ 0 "x" = Except.error ResolveError.bookmarkUnknown ∧
    BookmarkRegistry.resolve ⟨[], true⟩ 0 "y"
      = Except.error ResolveError.stateAlreadyFinalized :=
  bookmark_resolution_contract ⟨[⟨"orig", false⟩], false⟩ ⟨[⟨"patched", true⟩], false⟩ 0
    "patched" "again" ⟨[], false⟩ 0 "x" ⟨[], true⟩ 0 "y" rfl rfl (Nat.le_refl 0) rfl

/-- C5 (counterexample): the plain-object view does not always preserve
insertion order.  With the configuration section `[("b","1"), ("0","2")]`,
`Object.fromEntries` yields an object whose enumeration order puts the
array-index key `"0"` first, so `configSectionAsObject` returns the pairs
in the order `[("0","2"), ("b","1")]`, not insertion order. -/
theorem configSectionAsObject_reorders_index_keys :
    ({ State.new false false false none with
        configSection := some [("b", "1"), ("0", "2")] } : State).configSectionAsObject
      = some [("0", "2"), ("b", "1")] ∧
    (some [("0", "2"), ("b", "1")] : Option (List (String × String)))
      ≠ some [("b", "1"), ("0", "2")] :=
  ⟨rfl, by decide⟩

/-- C5 (amended): `configSectionAsObject` returns the explicit absence
marker exactly when no configuration section was ever recognized (an empty
recognized section yields an empty structure, not the absence marker), and
otherwise returns a plain key/value structure with the same key-value
pairs; insertion order is preserved whenever no key is a JavaScript
array-index string (JS objects enumerate array-index keys first, in
ascending numeric order). -/
theorem configSectionAsObject_view (s : State) (entries : List (String × String))
    (hnd : (entries.map Prod.fst).Nodup)
    (hni : ∀ e ∈ entries, isArrayIndexKey e.1 = false) :
    (s.configSectionAsObject = none ↔ s.configSection = none) ∧
    ({ s with configSection := some entries } : State).configSectionAsObject = some entries ∧
    ({ s with configSection := some [] } : State).configSectionAsObject = some [] := by
  refine ⟨?_, ?_, ?_⟩
  · unfold State.configSectionAsObject
    cases s.configSection <;> simp
  · show some (jsFromEntries entries) = some entries
    unfold jsFromEntries
    rw [foldl_jsAssoc_of_nodup entries [] (by simpa using hnd)]
    have h1 : entries.filter (fun e => isArrayIndexKey e.1) = [] := by
      rw [List.filter_eq_nil_iff]
      intro e he
      simp [hni e he]
    have h2 : entries.filter (fun e => !isArrayIndexKey e.1) = entries := by
      rw [List.filter_eq_self]
      intro e he
      simp [hni e he]
    simp [h1, h2, sortByIndexVal]
  · rfl


/-- C5 (witness): the amended statement instantiated on a fresh state and a
two-entry configuration section with ordinary directive-name keys. -/
theorem configSectionAsObject_view_witness :
    ((State.new false false false none).configSectionAsObject = none ↔
      (State.new false false false none).configSection = none) ∧
    ({ State.new false false false none with
        configSection := some [("filament_type", "PLA"), ("nozzle_diameter", "0.4")] } :
      State).configSectionAsObject
      = some [("filament_type", "PLA"), ("nozzle_diameter", "0.4")] ∧
    ({ State.new false false false none with
        configSection := some [] } : State).configSectionAsObject = some [] :=
  configSectionAsObject_view (State.new false false false none)
    [("filament_type", "PLA"), ("nozzle_diameter", "0.4")] (by decide) (by decide)
